import Mathlib

/-!
Verification of the URL-shortener bot (src/bot.py).

The Python source is shallowly embedded: every pure computation becomes a
Lean function over `List Char` / `String` / `Nat` / `Int`, the global
mutable user-statistics dictionary becomes explicit state passing over a
`StatsStore`, and every interaction with the remote HTTP API becomes an
explicit `Outcome` parameter enumerating what the network produced
(timeout, connection error, some other exception, or an HTTP response with
a status code and a parsed body).  Fields that the Python code reads with
`dict.get` are embedded as `Option` values (`none` = key absent).
-/

/-! ## Character classes and small string primitives

Python string primitives (`str.split`, `str.strip`, slicing, `str(int)`)
are re-implemented structurally over `List Char` so that every definition
evaluates by kernel reduction.
-/

/-- The characters matched by the Python regex class `\s` (and removed by
`str.strip()`): ASCII whitespace, the ASCII separator block 0x1c-0x1f, and
the common Unicode whitespace code points. -/
def isPySpace (c : Char) : Bool :=
  (9 ≤ c.toNat && c.toNat ≤ 13) || c = ' ' ||
  (28 ≤ c.toNat && c.toNat ≤ 31) || c.toNat = 133 || c.toNat = 160 ||
  c.toNat = 5760 || (8192 ≤ c.toNat && c.toNat ≤ 8202) ||
  c.toNat = 8232 || c.toNat = 8233 || c.toNat = 8239 || c.toNat = 8287 ||
  c.toNat = 12288

/-- The four non-ASCII code points that Python `re.IGNORECASE` (Unicode
mode) adds to the letter ranges `A-Z`/`a-z`: U+0130 and U+212A have
simple lower case `i`/`k`, and U+0131, U+017F are added by the case-fold
equivalences for `i` and `s` in the `re` module.  Verified by matching
every code point against the compiled classes. -/
def isCaseFoldExtra (c : Char) : Bool :=
  c.toNat = 0x130 || c.toNat = 0x131 || c.toNat = 0x17F || c.toNat = 0x212A

/-- The regex class `[A-Za-z0-9-]` of the domain labels in `is_valid_url`,
under `re.IGNORECASE`: the ASCII members plus the case-fold extras. -/
def isLabelChar (c : Char) : Bool :=
  c.isAlpha || c.isDigit || c = '-' || isCaseFoldExtra c

/-- The regex class `[a-zA-Z0-9-]` of the custom-alias pattern in
`custom_command` (src/bot.py line 450); that `re.match` call has no
`IGNORECASE` flag, so the class is pure ASCII. -/
def isAliasChar (c : Char) : Bool :=
  c.isAlpha || c.isDigit || c = '-'

/-- The Unicode decimal-digit category Nd, which Python `\d` matches in
Unicode mode, as code-point ranges (Unicode 14.0, the table of
CPython 3.11; extracted by matching every code point against `\d`). -/
def ndRanges : List (Nat × Nat) :=
  [(0x30, 0x39), (0x660, 0x669), (0x6F0, 0x6F9), (0x7C0, 0x7C9),
   (0x966, 0x96F), (0x9E6, 0x9EF), (0xA66, 0xA6F), (0xAE6, 0xAEF),
   (0xB66, 0xB6F), (0xBE6, 0xBEF), (0xC66, 0xC6F), (0xCE6, 0xCEF),
   (0xD66, 0xD6F), (0xDE6, 0xDEF), (0xE50, 0xE59), (0xED0, 0xED9),
   (0xF20, 0xF29), (0x1040, 0x1049), (0x1090, 0x1099), (0x17E0, 0x17E9),
   (0x1810, 0x1819), (0x1946, 0x194F), (0x19D0, 0x19D9), (0x1A80, 0x1A89),
   (0x1A90, 0x1A99), (0x1B50, 0x1B59), (0x1BB0, 0x1BB9), (0x1C40, 0x1C49),
   (0x1C50, 0x1C59), (0xA620, 0xA629), (0xA8D0, 0xA8D9), (0xA900, 0xA909),
   (0xA9D0, 0xA9D9), (0xA9F0, 0xA9F9), (0xAA50, 0xAA59), (0xABF0, 0xABF9),
   (0xFF10, 0xFF19), (0x104A0, 0x104A9), (0x10D30, 0x10D39),
   (0x11066, 0x1106F), (0x110F0, 0x110F9), (0x11136, 0x1113F),
   (0x111D0, 0x111D9), (0x112F0, 0x112F9), (0x11450, 0x11459),
   (0x114D0, 0x114D9), (0x11650, 0x11659), (0x116C0, 0x116C9),
   (0x11730, 0x11739), (0x118E0, 0x118E9), (0x11950, 0x11959),
   (0x11C50, 0x11C59), (0x11D50, 0x11D59), (0x11DA0, 0x11DA9),
   (0x16A60, 0x16A69), (0x16AC0, 0x16AC9), (0x16B50, 0x16B59),
   (0x1D7CE, 0x1D7FF), (0x1E140, 0x1E149), (0x1E2F0, 0x1E2F9),
   (0x1E950, 0x1E959), (0x1FBF0, 0x1FBF9)]

/-- The regex class `\d` of the port in `is_valid_url`, in Unicode mode:
any Unicode decimal digit. -/
def isPyDigit (c : Char) : Bool :=
  ndRanges.any (fun r => r.1 ≤ c.toNat && c.toNat ≤ r.2)

/-- A character that can occur in the domain portion of the URL regex:
a label character or the literal dot separating labels from the TLD. -/
def isDomainChar (c : Char) : Bool :=
  isLabelChar c || c = '.'

/-- Python `text.split(sep)` for a single-character separator, over char
lists.  `Python "".split(c) = [""]`, hence the base case `[[]]`. -/
def splitOnChar (sep : Char) : List Char → List (List Char)
  | [] => [[]]
  | c :: cs =>
    match splitOnChar sep cs with
    | [] => [[]]
    | h :: t => if c = sep then [] :: h :: t else (c :: h) :: t

/-- Python `s.strip()`: drop leading and trailing whitespace. -/
def pyStrip (cs : List Char) : List Char :=
  ((cs.dropWhile isPySpace).reverse.dropWhile isPySpace).reverse

/-- Python slicing `s[:n]` (by code points, as Python slices `str`). -/
def pyTake (n : Nat) (s : String) : String :=
  ⟨s.data.take n⟩

/-- Decimal digits of `n`, most significant first; fuel-based so that it
reduces structurally (`fuel = n + 1` always suffices since `n / 10 < n`
for `n ≥ 10`). -/
def natDigitsAux : Nat → Nat → List Char
  | 0, _ => []
  | fuel + 1, n =>
    if n < 10 then [Nat.digitChar n]
    else natDigitsAux fuel (n / 10) ++ [Nat.digitChar (n % 10)]

/-- Decimal rendering of a natural number, as Python `str(n)` renders it. -/
def natRepr (n : Nat) : String :=
  ⟨natDigitsAux (n + 1) n⟩

/-- Decimal rendering of an integer, as Python `str(i)` renders it. -/
def intRepr : Int → String
  | .ofNat n => natRepr n
  | .negSucc n => "-" ++ natRepr (n + 1)

/-- How a Python f-string renders a value that is either an `int` or
`None` (the `status` field read with `dict.get` can be absent). -/
def pyReprOptInt : Option Int → String
  | none => "None"
  | some i => intRepr i

/-- Python `s.split('/')[-1] if '/' in s else s`: the trailing path segment
used as the short identifier (src/bot.py lines 94, 103, 143). -/
def lastSegment (s : String) : String :=
  if s.data.contains '/' then ⟨(splitOnChar '/' s.data).getLastD []⟩ else s

/-! ## The URL validator (`is_valid_url`, src/bot.py lines 39-50)

The Python function matches the anchored regex
`^(https?://)(([A-Za-z0-9-]+\.)+[A-Za-z]{2,})(:\d+)?(/[^\s]*)?$`
with `re.IGNORECASE`.  The embedding is a hand-rolled matcher that is
deterministic: for this particular regex, greedy matching with
backtracking and the maximal-munch strategy below accept the same strings
(each character class is disjoint from the character that must follow it).
The Python `$` anchor matches at the end of the string and also just before
a single final newline; `endOk` reproduces that.  `re.IGNORECASE` in
Unicode mode is modelled exactly: beyond mapping ASCII case, it makes the
letter classes accept U+0130, U+0131, U+017F, U+212A and the literal `s`
of the scheme accept U+017F, and `\d` accepts every Unicode decimal
digit; all of these sets were extracted by matching every code point
against the compiled pattern pieces. -/

/-- Case-insensitive match of an input character against a literal
pattern character under `re.IGNORECASE` in Unicode mode: the character
itself, its ASCII upper case, and — for the literal `s` — U+017F, which
the `re` module case-folds to `s`.  (No other non-ASCII character matches
any literal of `https://`; verified over all code points.) -/
def charCI (c pat : Char) : Bool :=
  c = pat || c = pat.toUpper || (pat = 's' && c.toNat = 0x17F)

/-- Drop a case-insensitive pattern prefix from the input, returning the
remainder on success. -/
def dropCI : List Char → List Char → Option (List Char)
  | [], cs => some cs
  | _ :: _, [] => none
  | p :: ps, c :: cs => if charCI c p then dropCI ps cs else none

/-- Consume the scheme `https?://` (case-insensitive).  Trying the longer
alternative first is equivalent to the regex `https?` because after a
successful `https://` the character at index 4 is `s`/`S`, never `:`. -/
def stripScheme (cs : List Char) : Option (List Char) :=
  match dropCI "https://".data cs with
  | some rest => some rest
  | none => dropCI "http://".data cs

/-- Python `$` (no `re.MULTILINE`): end of input, or just before one final
newline. -/
def endOk : List Char → Bool
  | [] => true
  | c :: rest => c == '\n' && rest.isEmpty

/-- The regex class `[A-Za-z]` of the TLD under `re.IGNORECASE`: the
ASCII letters plus the case-fold extras. -/
def isTldChar (c : Char) : Bool :=
  c.isAlpha || isCaseFoldExtra c

/-- The TLD pattern `[A-Za-z]{2,}` applied to a whole segment. -/
def tldOk (cs : List Char) : Bool :=
  decide (2 ≤ cs.length) && cs.all isTldChar

/-- Matcher for `([A-Za-z0-9-]+\.)*[A-Za-z]{2,}` against the whole input.
Fuel-based structural recursion; `fuel = cs.length + 1` suffices since
every recursive step consumes the label and its dot. -/
def domTail : Nat → List Char → Bool
  | 0, _ => false
  | fuel + 1, cs =>
    match cs.dropWhile isLabelChar with
    | [] => tldOk cs
    | d :: rest => d == '.' && !(cs.takeWhile isLabelChar).isEmpty && domTail fuel rest

/-- Matcher for the domain group `([A-Za-z0-9-]+\.)+[A-Za-z]{2,}`: at least
one label (equivalently, the dot-free `domTail` decomposition contains a
dot) followed by a TLD. -/
def domainOk (cs : List Char) : Bool :=
  cs.any (fun c => c = '.') && domTail (cs.length + 1) cs

/-- Matcher for the optional path `(/[^\s]*)?` followed by `$`. -/
def pathOk : List Char → Bool
  | [] => endOk []
  | c :: rest =>
    if c = '/' then endOk (rest.dropWhile (fun x => !isPySpace x))
    else endOk (c :: rest)

/-- Matcher for the optional port `(:\d+)?`, then the optional path, then
`$`. -/
def tailOk : List Char → Bool
  | [] => pathOk []
  | c :: rest =>
    if c = ':' then
      !(rest.takeWhile isPyDigit).isEmpty && pathOk (rest.dropWhile isPyDigit)
    else pathOk (c :: rest)

/-- Embedding of `is_valid_url` (src/bot.py lines 39-50): the falsy guard on the empty
string, then the anchored regex.  The domain group of the regex consumes
exactly the maximal run of domain characters after the scheme, because
every character that may legally follow the domain (`:`, `/`, end, final
newline) is not a domain character. -/
def is_valid_url (url : String) : Bool :=
  if url = "" then false
  else
    match stripScheme url.data with
    | none => false
    | some rest =>
      domainOk (rest.takeWhile isDomainChar) && tailOk (rest.dropWhile isDomainChar)

/-! ## The shortener client (`shorten_url_with_cuttly`, src/bot.py lines 52-132)

The remote interaction is abstracted as a `ShortenOutcome`: what
`requests.get` produced.  A raised `requests.exceptions.Timeout` and
`ConnectionError` have dedicated handlers in the source; every other
exception (including a JSON decode error from `response.json()`) reaches
the generic `except Exception` handler carrying its message.  A received
HTTP response carries its transport status code and the parsed body,
where `ShortenBody.invalid` stands for a falsy JSON document or one
without a `url` key, `ShortenBody.emptyUrlData` for a falsy `url` field,
and `ShortenBody.urlData` for a non-empty `url` object with its `status`
and `shortLink` fields (absent keys become `none`). -/

/-- The `url` object of the remote JSON response: `status` and
`shortLink` as read with `dict.get` (`none` = key absent). -/
structure UrlPayload where
  status : Option Int
  shortLink : Option String
deriving DecidableEq

inductive ShortenBody
  | invalid
  | emptyUrlData
  | urlData (payload : UrlPayload)
deriving DecidableEq

inductive ShortenOutcome
  | timeout
  | connError
  | exn (msg : String)
  | resp (httpCode : Nat) (body : ShortenBody)
deriving DecidableEq

/-- The dictionary returned by `shorten_url_with_cuttly`: all keys the
Python code may put in it, `none` when the key is absent. -/
structure ShortenResult where
  success : Bool
  short_url : Option String := none
  short_id : Option String := none
  message : Option String := none
  error : Option String := none
  code : Option Int := none
  full_data : Option UrlPayload := none
deriving DecidableEq

/-- Python truthiness of an optional string: falsy when absent (`None`)
or empty. -/
def optStrFalsy : Option String → Bool
  | none => true
  | some s => s == ""

/-- The `error_codes` table of `shorten_url_with_cuttly`
(src/bot.py lines 111-118). -/
def error_codes (s : Option Int) : Option String :=
  if s = some 2 then some "Invalid URL"
  else if s = some 3 then some "Invalid custom alias"
  else if s = some 4 then some "Custom alias already taken"
  else if s = some 5 then some "Invalid API key"
  else if s = some 6 then some "Too many requests"
  else if s = some 8 then some "URL blocked by Cuttly"
  else none

/-- Embedding of `shorten_url_with_cuttly` (src/bot.py lines 52-132).  `custom_alias`
only changes the outbound request parameters, never the shape of the
result, so it is carried but unused here. -/
def shorten_url_with_cuttly (long_url : String) (custom_alias : Option String)
    (outcome : ShortenOutcome) : ShortenResult :=
  if long_url = "" then { success := false, error := some "No URL provided" }
  else
    match outcome with
    | .timeout => { success := false, error := some "Request timeout. Please try again." }
    | .connError => { success := false, error := some "Connection error. Check your internet." }
    | .exn msg => { success := false, error := some ("Internal error: " ++ (pyTake 100 msg)) }
    | .resp httpCode body =>
      if httpCode ≠ 200 then
        { success := false, error := some ("API Error: " ++ natRepr httpCode) }
      else
        match body with
        | .invalid => { success := false, error := some "Invalid API response" }
        | .emptyUrlData => { success := false, error := some "No URL data in response" }
        | .urlData payload =>
          if payload.status = some 7 then
            if optStrFalsy payload.shortLink then
              { success := false, error := some "No short link in response" }
            else
              { success := true, short_url := payload.shortLink,
                short_id := payload.shortLink.map lastSegment,
                full_data := some payload }
          else if payload.status = some 1 then
            if optStrFalsy payload.shortLink then
              { success := false, error := some "URL exists but no short link" }
            else
              { success := true, short_url := payload.shortLink,
                short_id := payload.shortLink.map lastSegment,
                message := some "URL already shortened",
                full_data := some payload }
          else
            { success := false,
              error := some ("Cuttly Error: " ++
                ((error_codes payload.status).getD
                  ("Unknown error (code: " ++ pyReprOptInt payload.status ++ ")"))),
              code := payload.status }

/-- Whether `shorten_url_with_cuttly` issues its single outbound
`requests.get`: the only return statement before the request is the
empty-URL guard (src/bot.py lines 57-58). -/
def shorten_makes_request (long_url : String) : Bool :=
  if long_url = "" then false else true

/-! ## The stats client (`get_url_stats`, src/bot.py lines 134-200)

Unlike the shortener, the stats client has no dedicated timeout or
connection-error handler: every exception reaches the single generic
`except Exception`, so the outcome type has only `exn` and `resp`. -/

/-- The `stats` object of the remote JSON response, fields read with
`dict.get` (`none` = key absent). -/
structure StatsPayload where
  status : Option Int
  title : Option String
  fullLink : Option String
  clicks : Option Int
  date : Option String
  facebook : Option Int
  twitter : Option Int
  instagram : Option Int
  pinterest : Option Int
deriving DecidableEq

inductive StatsBody
  | invalid
  | emptyStats
  | statsData (payload : StatsPayload)
deriving DecidableEq

inductive StatsOutcome
  | exn (msg : String)
  | resp (httpCode : Nat) (body : StatsBody)
deriving DecidableEq

/-- The normalized `stats` dictionary built on success
(src/bot.py lines 172-185). -/
structure StatsInfo where
  title : String
  short_url : String
  original_url : String
  clicks : Int
  date : String
  facebook : Int
  twitter : Int
  instagram : Int
  pinterest : Int
deriving DecidableEq

structure StatsResult where
  success : Bool
  stats : Option StatsInfo := none
  error : Option String := none
deriving DecidableEq

/-- The `error_codes` table of `get_url_stats` (src/bot.py lines 188-194).
Note the entry for key `1`, `Short URL not found`: the lookup only runs
when `status != 1`, so this entry can never be selected. -/
def stats_error_codes (s : Option Int) : Option String :=
  if s = some 1 then some "Short URL not found"
  else if s = some 2 then some "Invalid short URL"
  else if s = some 3 then some "Short URL not owned by user"
  else if s = some 4 then some "API key missing or invalid"
  else if s = some 5 then some "Too many requests"
  else none

/-- Embedding of `get_url_stats` (src/bot.py lines 134-200). -/
def get_url_stats (short_url : String) (outcome : StatsOutcome) : StatsResult :=
  if short_url = "" then { success := false, error := some "No URL provided" }
  else
    let short_id := lastSegment short_url
    if short_id = "" then { success := false, error := some "Invalid short URL" }
    else
      match outcome with
      | .exn msg =>
        { success := false, error := some ("Failed to fetch stats: " ++ (pyTake 100 msg)) }
      | .resp httpCode body =>
        if httpCode ≠ 200 then
          { success := false, error := some ("API Error: " ++ natRepr httpCode) }
        else
          match body with
          | .invalid => { success := false, error := some "Invalid API response" }
          | .emptyStats => { success := false, error := some "No stats data in response" }
          | .statsData payload =>
            if payload.status = some 1 then
              { success := true,
                stats := some {
                  title := payload.title.getD "No title",
                  short_url := "https://cutt.ly/" ++ short_id,
                  original_url := payload.fullLink.getD "Unknown",
                  clicks := payload.clicks.getD 0,
                  date := payload.date.getD "Unknown",
                  facebook := payload.facebook.getD 0,
                  twitter := payload.twitter.getD 0,
                  instagram := payload.instagram.getD 0,
                  pinterest := payload.pinterest.getD 0 } }
            else
              { success := false,
                error := some ("Stats Error: " ++
                  ((stats_error_codes payload.status).getD
                    ("Unknown error (code: " ++ pyReprOptInt payload.status ++ ")"))) }

/-! ## The user statistics store (`user_stats` / `update_user_stats`,
src/bot.py lines 34, 268-284)

The global dictionary becomes a function from user id to an optional
entry, updated by explicit state passing.  Timestamps are abstract `Nat`
instants (`datetime.datetime.now()` at the moment of the update).  Python
checks the truthiness of the stored first_used value: it is `None` or
a `datetime`, and `datetime` objects are always truthy, so the check is
exactly `first_used = none`. -/

structure UserUsage where
  urls_shortened : Nat
  first_used : Option Nat
  last_used : Option Nat
deriving DecidableEq

def StatsStore := Int → Option UserUsage

/-- Embedding of `update_user_stats` (src/bot.py lines 268-284): create a fresh
all-zero entry for an unseen user, add `url_count` to the counter, set
`last_used` to now, set `first_used` to now only if it is unset.  Note
that the call itself always runs these steps, even with `url_count = 0`. -/
def update_user_stats (store : StatsStore) (user_id : Int) (now : Nat)
    (url_count : Nat) : StatsStore :=
  let cur := (store user_id).getD { urls_shortened := 0, first_used := none, last_used := none }
  let upd : UserUsage :=
    { urls_shortened := cur.urls_shortened + url_count,
      last_used := some now,
      first_used := if cur.first_used = none then some now else cur.first_used }
  fun i => if i = user_id then some upd else store i

/-- The `first_used` field a user currently has (absent users read as the
all-zero default of `mystats_command`). -/
def firstUsedOf (store : StatsStore) (user_id : Int) : Option Nat :=
  ((store user_id).getD { urls_shortened := 0, first_used := none, last_used := none }).first_used

/-- The tiered rank label of `/mystats` (src/bot.py line 360):
Beginner if the count is below 5, else Pro if above 50, else Regular. -/
def mystats_rank (urls_count : Nat) : String :=
  if urls_count < 5 then "Beginner" else if urls_count > 50 then "Pro" else "Regular"

/-! ## Bulk processing (`handle_bulk_urls`, src/bot.py lines 647-724)

The handler is embedded as a function from the inbound text, the current
store and an oracle `remote : Nat → ShortenOutcome` giving the network
outcome of the i-th shorten call, to a `BulkResult`: which reply was sent,
the store afterwards, and how many shorten calls were issued. -/

/-- Embedding of `[line.strip() for line in text.split('\n') if line.strip()]`
(src/bot.py line 649). -/
def bulk_lines (text : String) : List String :=
  ((splitOnChar '\n' text.data).map (fun l => (⟨pyStrip l⟩ : String))).filter
    (fun l => !(l == ""))

inductive BulkReply
  | tooMany
  | noValid
  | report (successful failed invalidCount : Nat)
deriving DecidableEq

structure BulkResult where
  reply : BulkReply
  store : StatsStore
  shorten_calls : Nat

/-- Embedding of `handle_bulk_urls` (src/bot.py lines 647-724): reject more than 10
lines outright; reject when no line is a valid URL; otherwise shorten each
valid URL in order, count successes and failures, and update the user
statistics with the number of successes — the update runs even when that
number is zero. -/
def handle_bulk_urls (store : StatsStore) (user_id : Int) (now : Nat)
    (remote : Nat → ShortenOutcome) (text : String) : BulkResult :=
  let urls := bulk_lines text
  if urls.length > 10 then
    { reply := .tooMany, store := store, shorten_calls := 0 }
  else
    let valid_urls := urls.filter is_valid_url
    let invalid_urls := urls.filter (fun u => !is_valid_url u)
    if valid_urls.isEmpty then
      { reply := .noValid, store := store, shorten_calls := 0 }
    else
      let results := valid_urls.enum.map
        (fun p => shorten_url_with_cuttly p.2 none (remote p.1))
      let successful := (results.filter (fun r => r.success)).length
      let failed := (results.filter (fun r => !r.success)).length
      { reply := .report successful failed invalid_urls.length,
        store := update_user_stats store user_id now successful,
        shorten_calls := valid_urls.length }

/-! ## Store-touching operations (the orchestrator)

Only three inbound flows ever call `update_user_stats`: a bare URL
message (`handle_url`, src/bot.py line 622), `/custom`
(`custom_command`, line 479), and bulk input (`handle_bulk_urls`,
line 711).  Every other handler (`/start`, `/help`, `/mystats`,
`/stats`, `/qr`, button callbacks) never touches the store. -/

/-- The custom-alias pattern `^[a-zA-Z0-9-]{3,30}$` of `custom_command`
(src/bot.py line 450), with Python `$` again accepting one final newline
after the matched block. -/
def alias_pattern_ok (s : String) : Bool :=
  (decide (3 ≤ s.data.length) && decide (s.data.length ≤ 30) && s.data.all isAliasChar)
  || (decide (4 ≤ s.data.length) && decide (s.data.length ≤ 31)
      && s.data.dropLast.all isAliasChar && (s.data.getLast? == some '\n'))

/-- Whether a bare-URL message records usage: the text validates and the
shorten call succeeds (src/bot.py lines 600, 620-622). -/
def single_shorten_records (text : String) (o : ShortenOutcome) : Bool :=
  is_valid_url text && (shorten_url_with_cuttly text none o).success

/-- Whether a `/custom alias url` command records usage: the alias matches
its pattern, the URL validates, and the shorten call succeeds
(src/bot.py lines 450, 462, 476-479). -/
def custom_records (custom_alias url : String) (o : ShortenOutcome) : Bool :=
  alias_pattern_ok custom_alias && is_valid_url url
    && (shorten_url_with_cuttly url (some custom_alias) o).success

/-- An inbound event that may touch the user-statistics store, with the
network outcomes of the shorten calls it performs. -/
inductive BotOp
  | single (text : String) (o : ShortenOutcome)
  | custom (custom_alias url : String) (o : ShortenOutcome)
  | bulk (text : String) (remote : Nat → ShortenOutcome)

/-- The store after handling one inbound event (src/bot.py lines 622, 479,
711; the early returns of each handler leave the store untouched). -/
def runOp (store : StatsStore) (user_id : Int) (now : Nat) : BotOp → StatsStore
  | .single text o =>
    if single_shorten_records text o then update_user_stats store user_id now 1 else store
  | .custom custom_alias url o =>
    if custom_records custom_alias url o then update_user_stats store user_id now 1 else store
  | .bulk text remote => (handle_bulk_urls store user_id now remote text).store

/-- How many successful shortens an event performs. -/
def opSuccessCount : BotOp → Nat
  | .single text o => if single_shorten_records text o then 1 else 0
  | .custom custom_alias url o => if custom_records custom_alias url o then 1 else 0
  | .bulk text remote =>
    let urls := bulk_lines text
    if urls.length > 10 then 0
    else
      (((urls.filter is_valid_url).enum.map
        (fun p => shorten_url_with_cuttly p.2 none (remote p.1))).filter
          (fun r => r.success)).length

/-- Whether an event reaches its `update_user_stats` call.  For single and
custom messages this requires a successful shorten; for bulk input it only
requires the batch to be within the limit and to contain at least one
valid URL — the update then runs even if every shorten in it failed. -/
def opRecordsUsage : BotOp → Bool
  | .single text o => single_shorten_records text o
  | .custom custom_alias url o => custom_records custom_alias url o
  | .bulk text _ =>
    let urls := bulk_lines text
    decide (urls.length ≤ 10) && !(urls.filter is_valid_url).isEmpty

/-! ## Spec-side characterization of the validator

The following predicates are written from the specification text, not from
the source: a string of the form `scheme://domain(.tld)+[:port][/path]`
with scheme `http` or `https` matched case-insensitively.  They are used
to compare the regex matcher against the spec (claim C5). -/

/-- Character-by-character case-insensitive equality with a pattern. -/
def CIEq (s pat : List Char) : Prop :=
  List.Forall₂ (fun c p => charCI c p = true) s pat

/-- Spec: the leading `scheme://` block with scheme `http` or `https`,
case-insensitive. -/
def SpecScheme (s : List Char) : Prop :=
  CIEq s "http://".data ∨ CIEq s "https://".data

/-- Spec: one domain label, a non-empty run of `[A-Za-z0-9-]`. -/
def SpecLabel (l : List Char) : Prop :=
  l ≠ [] ∧ ∀ c ∈ l, isLabelChar c = true

/-- Spec: a top-level-domain segment, at least two letters (`[A-Za-z]`
under `re.IGNORECASE`). -/
def SpecTld (t : List Char) : Prop :=
  2 ≤ t.length ∧ ∀ c ∈ t, isTldChar c = true

/-- Spec: the domain block `label(.label)*.tld`, i.e. one or more
dot-terminated labels followed by a TLD. -/
def SpecDomain (d : List Char) : Prop :=
  ∃ (ls : List (List Char)) (t : List Char),
    ls ≠ [] ∧ (∀ l ∈ ls, SpecLabel l) ∧ SpecTld t ∧
    d = (ls.map (fun l => l ++ ['.'])).flatten ++ t

/-- Spec: the optional `:port` block (empty, or a colon followed by at
least one decimal digit, `\d` in Unicode mode). -/
def SpecPortOpt (p : List Char) : Prop :=
  p = [] ∨ ∃ ds, ds ≠ [] ∧ (∀ c ∈ ds, isPyDigit c = true) ∧ p = ':' :: ds

/-- Spec: the optional `/path` block (empty, or a slash followed by any
run of non-whitespace characters). -/
def SpecPathOpt (q : List Char) : Prop :=
  q = [] ∨ ∃ cs, (∀ c ∈ cs, isPySpace c = false) ∧ q = '/' :: cs

/-- Spec: a well-formed URL string, `scheme://domain(.tld)+[:port][/path]`. -/
def SpecValidUrl (s : String) : Prop :=
  ∃ sch d p q, SpecScheme sch ∧ SpecDomain d ∧ SpecPortOpt p ∧ SpecPathOpt q ∧
    s.data = sch ++ (d ++ (p ++ q))

/-! ## Helper lemmas -/

/-- Splitting `takeWhile`/`dropWhile` over an append whose left part
satisfies the predicate and whose right part does not start with it. -/
theorem takeWhile_dropWhile_append (p : Char → Bool) (a b : List Char)
    (ha : ∀ c ∈ a, p c = true)
    (hb : ∀ c, b.head? = some c → p c = false) :
    (a ++ b).takeWhile p = a ∧ (a ++ b).dropWhile p = b := by
  induction a with
  | nil =>
    simp only [List.nil_append]
    cases b with
    | nil => simp
    | cons c t =>
      have hc : p c = false := hb c rfl
      simp [List.takeWhile, List.dropWhile, hc]
  | cons x a ih =>
    have hx : p x = true := ha x (by simp)
    have ih2 := ih (fun c hc => ha c (by simp [hc]))
    simp [List.takeWhile, List.dropWhile, hx, ih2.1, ih2.2]

theorem data_append_eq (a b : String) : (a ++ b).data = a.data ++ b.data := by
  cases a; cases b; rfl

theorem string_eq_empty_iff (s : String) : s = "" ↔ s.data = [] :=
  ⟨fun h => by rw [h], fun h => String.ext (by rw [h])⟩

theorem append_ne_empty_left (a b : String) (h : a.data ≠ []) : a ++ b ≠ "" := by
  intro he
  rw [string_eq_empty_iff, data_append_eq] at he
  exact h (List.append_eq_nil.mp he).1

/-- For a pattern character that is its own upper case and is not the
letter `s` (every non-letter), the case-insensitive match is plain
equality. -/
theorem charCI_self (c p : Char) (h : p.toUpper = p) (hs : p ≠ 's') :
    charCI c p = true ↔ c = p := by
  simp [charCI, h, hs]

theorem dropCI_eq_some_iff (pat : List Char) : ∀ (cs rest : List Char),
    dropCI pat cs = some rest ↔ ∃ pfx, CIEq pfx pat ∧ cs = pfx ++ rest := by
  induction pat with
  | nil =>
    intro cs rest
    constructor
    · intro h
      refine ⟨[], List.Forall₂.nil, ?_⟩
      simpa [dropCI] using h
    · rintro ⟨pfx, hf, rfl⟩
      have : pfx = [] := List.forall₂_nil_right_iff.mp hf
      subst this
      simp [dropCI]
  | cons p ps ih =>
    intro cs rest
    cases cs with
    | nil =>
      constructor
      · intro h; simp [dropCI] at h
      · rintro ⟨pfx, hf, habs⟩
        rcases hf with _ | ⟨h1, hf⟩
        simp at habs
    | cons c cs' =>
      constructor
      · intro h
        by_cases hc : charCI c p = true
        · rw [show dropCI (p :: ps) (c :: cs') = dropCI ps cs' from by simp [dropCI, hc]] at h
          obtain ⟨pfx', hf', rfl⟩ := (ih cs' rest).mp h
          exact ⟨c :: pfx', List.Forall₂.cons hc hf', rfl⟩
        · rw [show dropCI (p :: ps) (c :: cs') = none from by
            simp [dropCI]
            intro hcc
            exact absurd hcc hc] at h
          simp at h
      · rintro ⟨pfx, hf, heq⟩
        cases pfx with
        | nil => cases hf
        | cons c0 pfx' =>
          rcases hf with _ | ⟨h1, hf⟩
          rw [List.cons_append, List.cons.injEq] at heq
          obtain ⟨rfl, rfl⟩ := heq
          simp only [dropCI, h1, if_true]
          exact (ih _ rest).mpr ⟨pfx', hf, rfl⟩

/-- A case-insensitive prefix is consumed deterministically. -/
theorem dropCI_of_CIEq (pat pfx r : List Char) (h : CIEq pfx pat) :
    dropCI pat (pfx ++ r) = some r := by
  exact (dropCI_eq_some_iff pat (pfx ++ r) r).mpr ⟨pfx, h, rfl⟩

/-- An `http://` prefix never also parses as an `https://` prefix: the
character at index 4 is a colon, which is not `s` or `S`. -/
theorem dropCI_https_of_http (sch r : List Char) (h : CIEq sch "http://".data) :
    dropCI "https://".data (sch ++ r) = none := by
  rcases h with _ | ⟨h1, h⟩
  rcases h with _ | ⟨h2, h⟩
  rcases h with _ | ⟨h3, h⟩
  rcases h with _ | ⟨h4, h⟩
  rcases h with _ | ⟨h5, h⟩
  rcases h with _ | ⟨h6, h⟩
  rcases h with _ | ⟨h7, h⟩
  rcases h
  have h5' : _ = ':' := (charCI_self _ ':' (by decide) (by decide)).mp h5
  subst h5'
  show dropCI ('h' :: 't' :: 't' :: 'p' :: 's' :: ':' :: '/' :: '/' :: []) _ = none
  simp only [List.cons_append, List.nil_append, dropCI, h1, h2, h3, h4, if_true]
  have : charCI ':' 's' = false := by decide
  simp [this]

theorem stripScheme_iff (cs rest : List Char) :
    stripScheme cs = some rest ↔ ∃ sch, SpecScheme sch ∧ cs = sch ++ rest := by
  constructor
  · intro h
    unfold stripScheme at h
    cases hs : dropCI "https://".data cs with
    | some r =>
      rw [hs] at h
      obtain rfl : r = rest := by simpa using h
      obtain ⟨pfx, hf, rfl⟩ := (dropCI_eq_some_iff _ _ _).mp hs
      exact ⟨pfx, Or.inr hf, rfl⟩
    | none =>
      rw [hs] at h
      obtain ⟨pfx, hf, rfl⟩ := (dropCI_eq_some_iff _ _ _).mp h
      exact ⟨pfx, Or.inl hf, rfl⟩
  · rintro ⟨sch, hsch, rfl⟩
    rcases hsch with hhttp | hhttps
    · unfold stripScheme
      rw [dropCI_https_of_http sch rest hhttp]
      exact dropCI_of_CIEq _ sch rest hhttp
    · unfold stripScheme
      rw [dropCI_of_CIEq _ sch rest hhttps]

theorem takeWhile_all (p : Char → Bool) (a : List Char) (ha : ∀ c ∈ a, p c = true) :
    a.takeWhile p = a ∧ a.dropWhile p = [] := by
  have h := takeWhile_dropWhile_append p a [] ha (fun c hc => by simp at hc)
  simpa using h

theorem isLabelChar_of_isTldChar (c : Char) (h : isTldChar c = true) :
    isLabelChar c = true := by
  simp only [isTldChar, Bool.or_eq_true] at h
  simp only [isLabelChar, Bool.or_eq_true]
  rcases h with h | h
  · exact Or.inl (Or.inl (Or.inl h))
  · exact Or.inr h

theorem not_isEmpty_iff_ne_nil (l : List Char) : (!l.isEmpty) = true ↔ l ≠ [] := by
  cases l <;> simp

theorem domTail_succ (fuel : Nat) (cs : List Char) :
    domTail (fuel + 1) cs =
      match cs.dropWhile isLabelChar with
      | [] => tldOk cs
      | d :: rest => d == '.' && !(cs.takeWhile isLabelChar).isEmpty && domTail fuel rest
      := rfl

/-- The fuel-based `domTail` matcher accepts exactly the decompositions
into zero or more dot-terminated labels followed by a TLD. -/
theorem domTail_iff (fuel : Nat) : ∀ (cs : List Char), cs.length < fuel →
    (domTail fuel cs = true ↔
      ∃ (ls : List (List Char)) (t : List Char),
        (∀ l ∈ ls, SpecLabel l) ∧ SpecTld t ∧
        cs = (ls.map (fun l => l ++ ['.'])).flatten ++ t) := by
  induction fuel with
  | zero => intro cs h; exact absurd h (by omega)
  | succ fuel ih =>
    intro cs hlen
    cases hd : cs.dropWhile isLabelChar with
    | nil =>
      have h1 : domTail (fuel + 1) cs = tldOk cs := by rw [domTail_succ, hd]
      constructor
      · intro h
        rw [h1] at h
        refine ⟨[], cs, by simp, ?_, by simp⟩
        simp only [tldOk, Bool.and_eq_true, decide_eq_true_eq, List.all_eq_true] at h
        exact ⟨h.1, h.2⟩
      · rintro ⟨ls, t, hls, ht, heq⟩
        cases ls with
        | nil =>
          simp only [List.map_nil, List.flatten_nil, List.nil_append] at heq
          subst heq
          rw [h1]
          simp only [tldOk, Bool.and_eq_true, decide_eq_true_eq, List.all_eq_true]
          exact ⟨ht.1, ht.2⟩
        | cons l ls' =>
          exfalso
          have hl := hls l (by simp)
          have hsplit := takeWhile_dropWhile_append isLabelChar l
            ('.' :: ((ls'.map (fun x => x ++ ['.'])).flatten ++ t)) hl.2
            (fun c hc => by
              rw [List.head?_cons] at hc
              cases hc
              decide)
          rw [show l ++ '.' :: ((ls'.map (fun x => x ++ ['.'])).flatten ++ t)
              = cs from by rw [heq]; simp] at hsplit
          rw [hd] at hsplit
          exact List.noConfusion hsplit.2
    | cons d rest =>
      have h1 : domTail (fuel + 1) cs
          = (d == '.' && !(cs.takeWhile isLabelChar).isEmpty && domTail fuel rest) := by
        rw [domTail_succ, hd]
      by_cases hc : d = '.'
      · subst hc
        have hsplit : cs = cs.takeWhile isLabelChar ++ '.' :: rest := by
          conv_lhs => rw [← List.takeWhile_append_dropWhile (p := isLabelChar) (l := cs)]
          rw [hd]
        have hrest : rest.length < fuel := by
          have h2 := congrArg List.length hsplit
          simp only [List.length_append, List.length_cons] at h2
          omega
        have hrun : ∀ x ∈ cs.takeWhile isLabelChar, isLabelChar x = true :=
          fun x hx => List.mem_takeWhile_imp hx
        rw [h1]
        constructor
        · intro h
          simp only [beq_self_eq_true, Bool.true_and, Bool.and_eq_true] at h
          obtain ⟨ls', t, hls', ht, hre⟩ := (ih rest hrest).mp h.2
          refine ⟨cs.takeWhile isLabelChar :: ls', t, ?_, ht, ?_⟩
          · intro l hl
            rcases List.mem_cons.mp hl with rfl | hl
            · exact ⟨(not_isEmpty_iff_ne_nil _).mp h.1, hrun⟩
            · exact hls' l hl
          · conv_lhs => rw [hsplit]
            rw [hre]
            simp
        · rintro ⟨ls, t, hls, ht, heq⟩
          cases ls with
          | nil =>
            exfalso
            simp only [List.map_nil, List.flatten_nil, List.nil_append] at heq
            subst heq
            have hall : ∀ x ∈ cs, isLabelChar x = true :=
              fun x hx => isLabelChar_of_isTldChar x (ht.2 x hx)
            rw [(takeWhile_all isLabelChar cs hall).2] at hd
            exact List.noConfusion hd
          | cons l ls' =>
            have hl := hls l (by simp)
            have heqcs : cs = l ++ '.' :: ((ls'.map (fun x => x ++ ['.'])).flatten ++ t) := by
              rw [heq]; simp
            have hsplit2 := takeWhile_dropWhile_append isLabelChar l
              ('.' :: ((ls'.map (fun x => x ++ ['.'])).flatten ++ t)) hl.2
              (fun x hx => by
                rw [List.head?_cons] at hx
                cases hx
                decide)
            rw [← heqcs] at hsplit2
            have hrest2 : rest = (ls'.map (fun x => x ++ ['.'])).flatten ++ t := by
              have h3 := hsplit2.2.symm.trans hd
              exact ((List.cons.injEq _ _ _ _).mp h3.symm).2
            simp only [beq_self_eq_true, Bool.true_and, Bool.and_eq_true]
            constructor
            · rw [hsplit2.1]
              exact (not_isEmpty_iff_ne_nil _).mpr hl.1
            · exact (ih rest hrest).mpr ⟨ls', t, fun x hx => hls x (by simp [hx]), ht, hrest2⟩
      · have hfalse : domTail (fuel + 1) cs = false := by
          rw [h1]
          have : (d == '.') = false := beq_eq_false_iff_ne.mpr hc
          simp [this]
        rw [hfalse]
        constructor
        · intro h; exact absurd h (by simp)
        · rintro ⟨ls, t, hls, ht, heq⟩
          exfalso
          cases ls with
          | nil =>
            simp only [List.map_nil, List.flatten_nil, List.nil_append] at heq
            subst heq
            have hall : ∀ x ∈ cs, isLabelChar x = true :=
              fun x hx => isLabelChar_of_isTldChar x (ht.2 x hx)
            rw [(takeWhile_all isLabelChar cs hall).2] at hd
            exact List.noConfusion hd
          | cons l ls' =>
            have hl := hls l (by simp)
            have heqcs : cs = l ++ '.' :: ((ls'.map (fun x => x ++ ['.'])).flatten ++ t) := by
              rw [heq]; simp
            have hsplit2 := takeWhile_dropWhile_append isLabelChar l
              ('.' :: ((ls'.map (fun x => x ++ ['.'])).flatten ++ t)) hl.2
              (fun x hx => by
                rw [List.head?_cons] at hx
                cases hx
                decide)
            rw [← heqcs] at hsplit2
            have h3 := hsplit2.2.symm.trans hd
            exact hc (((List.cons.injEq _ _ _ _).mp h3).1).symm

/-- The domain matcher accepts exactly the spec-side domain blocks. -/
theorem domainOk_iff (cs : List Char) : domainOk cs = true ↔ SpecDomain cs := by
  unfold domainOk SpecDomain
  constructor
  · intro h
    simp only [Bool.and_eq_true] at h
    obtain ⟨ls, t, hls, ht, rfl⟩ := (domTail_iff _ cs (by omega)).mp h.2
    refine ⟨ls, t, ?_, hls, ht, rfl⟩
    intro hnil
    subst hnil
    simp only [List.map_nil, List.flatten_nil, List.nil_append] at h
    obtain ⟨c, hc, hcd⟩ := List.any_eq_true.mp h.1
    have := ht.2 c hc
    rw [decide_eq_true_eq] at hcd
    subst hcd
    exact absurd this (by decide)
  · rintro ⟨ls, t, hne, hls, ht, rfl⟩
    simp only [Bool.and_eq_true]
    constructor
    · cases ls with
      | nil => exact absurd rfl hne
      | cons l ls' =>
        refine List.any_eq_true.mpr ⟨'.', ?_, by simp⟩
        simp
    · exact (domTail_iff _ _ (by omega)).mpr ⟨ls, t, hls, ht, rfl⟩

/-- Every character of a spec-side domain block is a domain character. -/
theorem SpecDomain_chars (d : List Char) (h : SpecDomain d) :
    ∀ c ∈ d, isDomainChar c = true := by
  obtain ⟨ls, t, _, hls, ht, rfl⟩ := h
  intro c hc
  rcases List.mem_append.mp hc with hc | hc
  · obtain ⟨l', hl', hcl⟩ := List.mem_flatten.mp hc
    obtain ⟨l, hl, rfl⟩ := List.mem_map.mp hl'
    rcases List.mem_append.mp hcl with hcl | hcl
    · have := (hls l hl).2 c hcl
      simp [isDomainChar, this]
    · simp only [List.mem_singleton] at hcl
      subst hcl
      decide
  · simp [isDomainChar, isLabelChar_of_isTldChar c (ht.2 c hc)]

theorem endOk_iff (cs : List Char) : endOk cs = true ↔ cs = [] ∨ cs = ['\n'] := by
  cases cs with
  | nil => simp [endOk]
  | cons c rest =>
    cases rest with
    | nil => simp [endOk]
    | cons d rest' => simp [endOk]

/-- The path-then-anchor matcher accepts exactly an optional spec-side
path block followed by the anchor remainder (empty or one newline). -/
theorem path_iff (cs : List Char) : pathOk cs = true ↔
    ∃ q nl, SpecPathOpt q ∧ (nl = [] ∨ nl = ['\n']) ∧ cs = q ++ nl := by
  cases cs with
  | nil =>
    constructor
    · intro _
      exact ⟨[], [], Or.inl rfl, Or.inl rfl, rfl⟩
    · intro _
      rfl
  | cons c rest =>
    by_cases hc : c = '/'
    · subst hc
      have h1 : pathOk ('/' :: rest) = endOk (rest.dropWhile (fun x => !isPySpace x)) := by
        simp [pathOk]
      rw [h1]
      constructor
      · intro h
        refine ⟨'/' :: rest.takeWhile (fun x => !isPySpace x),
                rest.dropWhile (fun x => !isPySpace x),
                Or.inr ⟨rest.takeWhile (fun x => !isPySpace x), ?_, rfl⟩,
                (endOk_iff _).mp h, ?_⟩
        · intro x hx
          have := List.mem_takeWhile_imp hx
          rwa [Bool.not_eq_true'] at this
        · simp [List.takeWhile_append_dropWhile]
      · rintro ⟨q, nl, hq, hnl, heq⟩
        rcases hq with rfl | ⟨pcs, hpcs, rfl⟩
        · exfalso
          rcases hnl with rfl | rfl
          · simp at heq
          · rw [List.nil_append] at heq
            have := ((List.cons.injEq _ _ _ _).mp heq).1
            exact absurd this (by decide)
        · have hrest : rest = pcs ++ nl := by
            rw [List.cons_append] at heq
            exact ((List.cons.injEq _ _ _ _).mp heq).2
          have hsplit := takeWhile_dropWhile_append (fun x => !isPySpace x) pcs nl
            (fun x hx => by simp [hpcs x hx])
            (fun x hx => by
              rcases hnl with rfl | rfl
              · simp at hx
              · rw [List.head?_cons] at hx
                cases hx
                decide)
          rw [hrest, hsplit.2]
          exact (endOk_iff _).mpr hnl
    · have h1 : pathOk (c :: rest) = endOk (c :: rest) := by
        simp [pathOk, hc]
      rw [h1]
      constructor
      · intro h
        exact ⟨[], c :: rest, Or.inl rfl, (endOk_iff _).mp h, rfl⟩
      · rintro ⟨q, nl, hq, hnl, heq⟩
        rcases hq with rfl | ⟨pcs, hpcs, rfl⟩
        · rw [List.nil_append] at heq
          rw [heq]
          exact (endOk_iff _).mpr hnl
        · exfalso
          rw [List.cons_append] at heq
          exact hc ((List.cons.injEq _ _ _ _).mp heq).1

/-- The port-then-path-then-anchor matcher accepts exactly an optional
spec-side port block, an optional path block, and the anchor remainder. -/
theorem tail_iff (cs : List Char) : tailOk cs = true ↔
    ∃ p q nl, SpecPortOpt p ∧ SpecPathOpt q ∧ (nl = [] ∨ nl = ['\n']) ∧
      cs = p ++ (q ++ nl) := by
  cases cs with
  | nil =>
    constructor
    · intro _
      exact ⟨[], [], [], Or.inl rfl, Or.inl rfl, Or.inl rfl, rfl⟩
    · intro _
      rfl
  | cons c rest =>
    by_cases hc : c = ':'
    · subst hc
      have h1 : tailOk (':' :: rest)
          = (!(rest.takeWhile isPyDigit).isEmpty && pathOk (rest.dropWhile isPyDigit)) := by
        simp [tailOk]
      rw [h1]
      constructor
      · intro h
        simp only [Bool.and_eq_true] at h
        obtain ⟨q, nl, hq, hnl, hre⟩ := (path_iff _).mp h.2
        refine ⟨':' :: rest.takeWhile isPyDigit, q, nl,
                Or.inr ⟨rest.takeWhile isPyDigit,
                        (not_isEmpty_iff_ne_nil _).mp h.1,
                        (fun x hx => List.mem_takeWhile_imp hx), rfl⟩,
                hq, hnl, ?_⟩
        rw [List.cons_append, ← hre]
        rw [List.takeWhile_append_dropWhile]
      · rintro ⟨p, q, nl, hp, hq, hnl, heq⟩
        rcases hp with rfl | ⟨ds, hds, hdig, rfl⟩
        · exfalso
          rw [List.nil_append] at heq
          rcases hq with rfl | ⟨pcs, hpcs, rfl⟩
          · rcases hnl with rfl | rfl
            · simp at heq
            · rw [List.nil_append] at heq
              exact absurd ((List.cons.injEq _ _ _ _).mp heq).1 (by decide)
          · rw [List.cons_append] at heq
            exact absurd ((List.cons.injEq _ _ _ _).mp heq).1 (by decide)
        · have hrest : rest = ds ++ (q ++ nl) := by
            rw [List.cons_append] at heq
            exact ((List.cons.injEq _ _ _ _).mp heq).2
          have hsplit := takeWhile_dropWhile_append isPyDigit ds (q ++ nl)
            (fun x hx => hdig x hx)
            (fun x hx => by
              rcases hq with rfl | ⟨pcs, hpcs, rfl⟩
              · rcases hnl with rfl | rfl
                · simp at hx
                · rw [List.nil_append, List.head?_cons] at hx
                  cases hx
                  decide
              · rw [List.cons_append, List.head?_cons] at hx
                cases hx
                decide)
          simp only [Bool.and_eq_true]
          constructor
          · rw [hrest, hsplit.1]
            exact (not_isEmpty_iff_ne_nil _).mpr hds
          · rw [hrest, hsplit.2]
            exact (path_iff _).mpr ⟨q, nl, hq, hnl, rfl⟩
    · have h1 : tailOk (c :: rest) = pathOk (c :: rest) := by
        simp [tailOk, hc]
      rw [h1]
      constructor
      · intro h
        obtain ⟨q, nl, hq, hnl, hre⟩ := (path_iff _).mp h
        exact ⟨[], q, nl, Or.inl rfl, hq, hnl, by rw [List.nil_append, hre]⟩
      · rintro ⟨p, q, nl, hp, hq, hnl, heq⟩
        rcases hp with rfl | ⟨ds, hds, hdig, rfl⟩
        · rw [List.nil_append] at heq
          exact (path_iff _).mpr ⟨q, nl, hq, hnl, heq⟩
        · exfalso
          rw [List.cons_append] at heq
          exact hc ((List.cons.injEq _ _ _ _).mp heq).1

/-- After the scheme, the matcher accepts exactly a spec-side domain,
optional port, optional path, and the anchor remainder.  The split into
maximal domain-character run and remainder is exact because every
character that may follow the domain block is not a domain character. -/
theorem rest_iff (rest : List Char) :
    (domainOk (rest.takeWhile isDomainChar) && tailOk (rest.dropWhile isDomainChar)) = true ↔
    ∃ d p q nl, SpecDomain d ∧ SpecPortOpt p ∧ SpecPathOpt q ∧ (nl = [] ∨ nl = ['\n']) ∧
      rest = d ++ (p ++ (q ++ nl)) := by
  constructor
  · intro h
    simp only [Bool.and_eq_true] at h
    have hd := (domainOk_iff _).mp h.1
    obtain ⟨p, q, nl, hp, hq, hnl, htl⟩ := (tail_iff _).mp h.2
    refine ⟨rest.takeWhile isDomainChar, p, q, nl, hd, hp, hq, hnl, ?_⟩
    rw [← htl, List.takeWhile_append_dropWhile]
  · rintro ⟨d, p, q, nl, hd, hp, hq, hnl, rfl⟩
    have hsplit := takeWhile_dropWhile_append isDomainChar d (p ++ (q ++ nl))
      (SpecDomain_chars d hd)
      (fun x hx => by
        rcases hp with rfl | ⟨ds, hds, hdig, rfl⟩
        · rw [List.nil_append] at hx
          rcases hq with rfl | ⟨pcs, hpcs, rfl⟩
          · rw [List.nil_append] at hx
            rcases hnl with rfl | rfl
            · simp at hx
            · rw [List.head?_cons] at hx
              cases hx
              decide
          · rw [List.cons_append, List.head?_cons] at hx
            cases hx
            decide
        · rw [List.cons_append, List.head?_cons] at hx
          cases hx
          decide)
    rw [hsplit.1, hsplit.2]
    simp only [Bool.and_eq_true]
    exact ⟨(domainOk_iff _).mpr hd, (tail_iff _).mpr ⟨p, q, nl, hp, hq, hnl, rfl⟩⟩

/-- Theorem: `is_valid_url` accepts exactly the spec-form strings, plus those
followed by a single trailing newline (Python `$`). -/
theorem valid_iff_spec (s : String) :
    is_valid_url s = true ↔
      (SpecValidUrl s ∨ ∃ t, SpecValidUrl t ∧ s = t ++ "\n") := by
  constructor
  · intro h
    unfold is_valid_url at h
    by_cases hs : s = ""
    · rw [if_pos hs] at h
      exact absurd h (by simp)
    · rw [if_neg hs] at h
      cases hst : stripScheme s.data with
      | none =>
        rw [hst] at h
        exact absurd h (by simp)
      | some rest =>
        rw [hst] at h
        obtain ⟨sch, hsch, hdata⟩ := (stripScheme_iff _ _).mp hst
        obtain ⟨d, p, q, nl, hd, hp, hq, hnl, hrest⟩ := (rest_iff rest).mp h
        rcases hnl with rfl | rfl
        · left
          exact ⟨sch, d, p, q, hsch, hd, hp, hq, by rw [hdata, hrest]; simp⟩
        · right
          refine ⟨⟨sch ++ (d ++ (p ++ q))⟩, ⟨sch, d, p, q, hsch, hd, hp, hq, rfl⟩, ?_⟩
          apply String.ext
          rw [data_append_eq]
          show s.data = (sch ++ (d ++ (p ++ q))) ++ ['\n']
          rw [hdata, hrest]
          simp
  · intro h
    have hschemes : ∀ sch : List Char, SpecScheme sch → sch ≠ [] := by
      rintro sch (hf | hf) rfl <;> cases hf
    rcases h with ⟨sch, d, p, q, hsch, hd, hp, hq, hdata⟩ |
                  ⟨t, ⟨sch, d, p, q, hsch, hd, hp, hq, hdata⟩, rfl⟩
    · have hs : s ≠ "" := by
        intro hs0
        rw [string_eq_empty_iff] at hs0
        rw [hs0] at hdata
        exact hschemes sch hsch (List.append_eq_nil.mp hdata.symm).1
      unfold is_valid_url
      rw [if_neg hs]
      rw [(stripScheme_iff s.data (d ++ (p ++ q))).mpr ⟨sch, hsch, hdata⟩]
      exact (rest_iff _).mpr ⟨d, p, q, [], hd, hp, hq, Or.inl rfl, by simp⟩
    · have hdata2 : (t ++ "\n").data = sch ++ (d ++ (p ++ (q ++ ['\n']))) := by
        rw [data_append_eq, hdata]
        show _ = sch ++ (d ++ (p ++ (q ++ ['\n'])))
        simp
      have hs : t ++ "\n" ≠ "" := by
        intro hs0
        rw [string_eq_empty_iff] at hs0
        rw [hs0] at hdata2
        exact hschemes sch hsch (List.append_eq_nil.mp hdata2.symm).1
      unfold is_valid_url
      rw [if_neg hs]
      rw [(stripScheme_iff _ (d ++ (p ++ (q ++ ['\n'])))).mpr ⟨sch, hsch, hdata2⟩]
      exact (rest_iff _).mpr ⟨d, p, q, ['\n'], hd, hp, hq, Or.inr rfl, rfl⟩

/-- Every character matched case-insensitively against a pattern comes
from some pattern character. -/
theorem CIEq_mem (s pat : List Char) (h : CIEq s pat) :
    ∀ c ∈ s, ∃ pc ∈ pat, charCI c pc = true := by
  induction h with
  | nil => intro c hc; simp at hc
  | cons h1 h2 ih =>
    intro c hc
    rcases List.mem_cons.mp hc with rfl | hc
    · exact ⟨_, by simp, h1⟩
    · obtain ⟨pc, hpc, hcpc⟩ := ih c hc
      exact ⟨pc, by simp [hpc], hcpc⟩

/-- No spec-form string contains a newline: the scheme block is a case
variant of `http(s)://`, the domain is made of domain characters, the
port of a colon and digits, and the path of a slash and non-whitespace
characters. -/
theorem SpecValidUrl_no_newline (s : String) (h : SpecValidUrl s) :
    ∀ c ∈ s.data, c ≠ '\n' := by
  obtain ⟨sch, d, p, q, hsch, hd, hp, hq, hdata⟩ := h
  intro c hc
  rw [hdata] at hc
  rintro rfl
  rcases List.mem_append.mp hc with hc | hc
  · rcases hsch with hf | hf
    · obtain ⟨pc, hpc, hcpc⟩ := CIEq_mem _ _ hf _ hc
      have : ∀ pc ∈ "http://".data, charCI '\n' pc = false := by decide
      rw [this pc hpc] at hcpc
      exact Bool.noConfusion hcpc
    · obtain ⟨pc, hpc, hcpc⟩ := CIEq_mem _ _ hf _ hc
      have : ∀ pc ∈ "https://".data, charCI '\n' pc = false := by decide
      rw [this pc hpc] at hcpc
      exact Bool.noConfusion hcpc
  rcases List.mem_append.mp hc with hc | hc
  · have := SpecDomain_chars d hd _ hc
    exact absurd this (by decide)
  rcases List.mem_append.mp hc with hc | hc
  · rcases hp with rfl | ⟨ds, _, hdig, rfl⟩
    · simp at hc
    · rcases List.mem_cons.mp hc with h0 | hc
      · exact absurd h0 (by decide)
      · exact absurd (hdig _ hc) (by decide)
  · rcases hq with rfl | ⟨pcs, hpcs, rfl⟩
    · simp at hc
    · rcases List.mem_cons.mp hc with h0 | hc
      · exact absurd h0 (by decide)
      · exact absurd (hpcs _ hc) (by decide)

theorem natDigitsAux_digits (fuel : Nat) : ∀ (n : Nat) (c : Char),
    c ∈ natDigitsAux fuel n → c.isDigit = true := by
  induction fuel with
  | zero => intro n c hc; simp [natDigitsAux] at hc
  | succ fuel ih =>
    intro n c hc
    unfold natDigitsAux at hc
    by_cases hn : n < 10
    · rw [if_pos hn] at hc
      simp only [List.mem_singleton] at hc
      subst hc
      have hsmall : ∀ m, m < 10 → (Nat.digitChar m).isDigit = true := by decide
      exact hsmall n hn
    · rw [if_neg hn] at hc
      rcases List.mem_append.mp hc with hc | hc
      · exact ih _ c hc
      · simp only [List.mem_singleton] at hc
        subst hc
        have hsmall : ∀ m, m < 10 → (Nat.digitChar m).isDigit = true := by decide
        exact hsmall _ (Nat.mod_lt _ (by omega))

theorem f_not_mem_natRepr (n : Nat) : 'f' ∉ (natRepr n).data := by
  intro h
  have := natDigitsAux_digits (n + 1) n 'f' h
  exact absurd this (by decide)

theorem f_not_mem_pyReprOptInt (x : Option Int) : 'f' ∉ (pyReprOptInt x).data := by
  cases x with
  | none => decide
  | some i =>
    cases i with
    | ofNat n => exact f_not_mem_natRepr n
    | negSucc n =>
      intro h
      rw [show pyReprOptInt (some (Int.negSucc n)) = "-" ++ natRepr (n + 1) from rfl,
        data_append_eq] at h
      rcases List.mem_append.mp h with h | h
      · exact absurd h (by decide)
      · exact f_not_mem_natRepr (n + 1) h

/-- A string without the letter `f` cannot contain the phrase
`Short URL not found` as a contiguous substring. -/
theorem not_infix_of_no_f (e : String) (hf : 'f' ∉ e.data) :
    ¬ List.IsInfix "Short URL not found".data e.data := by
  intro h
  exact hf (h.subset (by decide))

/-! ## Claim theorems -/

theorem optStrFalsy_false (x : Option String) (h : optStrFalsy x = false) :
    ∃ sl, x = some sl ∧ sl ≠ "" := by
  cases x with
  | none => simp [optStrFalsy] at h
  | some sl =>
    refine ⟨sl, rfl, ?_⟩
    rintro rfl
    simp [optStrFalsy] at h

/-- C1: every result of the shorten operation is either a success carrying
a non-empty short URL, or a failure carrying a non-empty error message —
for every input URL, alias, and remote outcome (non-200 responses,
malformed bodies, every remote status code, and every caught exception). -/
theorem C1_shorten_result_invariant (long_url : String) (custom_alias : Option String)
    (o : ShortenOutcome) :
    ((shorten_url_with_cuttly long_url custom_alias o).success = true ∧
      ∃ s, (shorten_url_with_cuttly long_url custom_alias o).short_url = some s ∧ s ≠ "") ∨
    ((shorten_url_with_cuttly long_url custom_alias o).success = false ∧
      ∃ e, (shorten_url_with_cuttly long_url custom_alias o).error = some e ∧ e ≠ "") := by
  unfold shorten_url_with_cuttly
  split
  · right; exact ⟨rfl, _, rfl, by decide⟩
  · split
    · right; exact ⟨rfl, _, rfl, by decide⟩
    · right; exact ⟨rfl, _, rfl, by decide⟩
    · right; exact ⟨rfl, _, rfl, append_ne_empty_left _ _ (by decide)⟩
    · split
      · right; exact ⟨rfl, _, rfl, append_ne_empty_left _ _ (by decide)⟩
      · split
        · right; exact ⟨rfl, _, rfl, by decide⟩
        · right; exact ⟨rfl, _, rfl, by decide⟩
        · split
          · split
            · right; exact ⟨rfl, _, rfl, by decide⟩
            · rename_i payload _ hfalsy
              rw [Bool.not_eq_true] at hfalsy
              obtain ⟨sl, hsl, hne⟩ := optStrFalsy_false _ hfalsy
              left
              exact ⟨rfl, sl, by rw [show (ShortenResult.short_url _) = payload.shortLink
                from rfl, hsl], hne⟩
          · split
            · split
              · right; exact ⟨rfl, _, rfl, by decide⟩
              · rename_i payload _ _ hfalsy
                rw [Bool.not_eq_true] at hfalsy
                obtain ⟨sl, hsl, hne⟩ := optStrFalsy_false _ hfalsy
                left
                exact ⟨rfl, sl, by rw [show (ShortenResult.short_url _) = payload.shortLink
                  from rfl, hsl], hne⟩
            · right; exact ⟨rfl, _, rfl, append_ne_empty_left _ _ (by decide)⟩

theorem string_append_assoc (a b c : String) : (a ++ b) ++ c = a ++ (b ++ c) :=
  String.ext (by simp [data_append_eq])

theorem mem_string_append (c : Char) (a b : String) :
    c ∈ (a ++ b).data ↔ c ∈ a.data ∨ c ∈ b.data := by
  rw [data_append_eq]
  exact List.mem_append

/-- C7: shortening the empty string always yields exactly
`success = false, error = "No URL provided"` — for every alias and every
remote outcome — and the function never issues its outbound request. -/
theorem C7_empty_url_fails_fast (custom_alias : Option String) (o : ShortenOutcome) :
    shorten_url_with_cuttly "" custom_alias o =
      { success := false, short_url := none, short_id := none, message := none,
        error := some "No URL provided", code := none, full_data := none } ∧
    shorten_makes_request "" = false :=
  ⟨rfl, rfl⟩

/-- C3: a 200 response whose `url.status` is 7 with a non-empty
`shortLink` yields success with `short_url` the short link and `short_id`
its trailing path segment; status 1 with a non-empty `shortLink` is
likewise a success carrying the informational note `URL already
shortened`; and the trailing segment of `https://cutt.ly/abc1` is
`abc1`. -/
theorem C3_success_statuses (long_url : String) (custom_alias : Option String) (sl : String)
    (hurl : long_url ≠ "") (hsl : sl ≠ "") :
    shorten_url_with_cuttly long_url custom_alias
        (.resp 200 (.urlData ⟨some 7, some sl⟩)) =
      { success := true, short_url := some sl, short_id := some (lastSegment sl),
        message := none, error := none, code := none,
        full_data := some ⟨some 7, some sl⟩ } ∧
    shorten_url_with_cuttly long_url custom_alias
        (.resp 200 (.urlData ⟨some 1, some sl⟩)) =
      { success := true, short_url := some sl, short_id := some (lastSegment sl),
        message := some "URL already shortened", error := none, code := none,
        full_data := some ⟨some 1, some sl⟩ } ∧
    lastSegment "https://cutt.ly/abc1" = "abc1" := by
  have hfalsy : optStrFalsy (some sl) = false := by simp [optStrFalsy, hsl]
  refine ⟨?_, ?_, by decide⟩
  · simp [shorten_url_with_cuttly, hurl, hfalsy]
  · simp [shorten_url_with_cuttly, hurl, hfalsy]

/-- C4: a 200 response whose `url.status` is neither 7 nor 1 fails with
the message determined by the fixed `error_codes` table (2 invalid URL, 3
invalid alias, 4 alias taken, 5 invalid key, 6 rate-limited, 8 blocked);
status 4 in particular produces an error containing `alias already
taken`, and any status outside the table produces the generic unknown
message carrying the raw code. -/
theorem C4_error_status_table (long_url : String) (custom_alias : Option String)
    (payload : UrlPayload)
    (hurl : long_url ≠ "") (h7 : payload.status ≠ some 7) (h1 : payload.status ≠ some 1) :
    ((shorten_url_with_cuttly long_url custom_alias (.resp 200 (.urlData payload))).success
        = false ∧
     (shorten_url_with_cuttly long_url custom_alias (.resp 200 (.urlData payload))).error =
       some ("Cuttly Error: " ++ ((error_codes payload.status).getD
         ("Unknown error (code: " ++ pyReprOptInt payload.status ++ ")"))) ∧
     (shorten_url_with_cuttly long_url custom_alias (.resp 200 (.urlData payload))).code
        = payload.status) ∧
    (error_codes (some 2) = some "Invalid URL" ∧
     error_codes (some 3) = some "Invalid custom alias" ∧
     error_codes (some 4) = some "Custom alias already taken" ∧
     error_codes (some 5) = some "Invalid API key" ∧
     error_codes (some 6) = some "Too many requests" ∧
     error_codes (some 8) = some "URL blocked by Cuttly") ∧
    (payload.status = some 4 →
      ∃ pre post, (shorten_url_with_cuttly long_url custom_alias
        (.resp 200 (.urlData payload))).error = some (pre ++ "alias already taken" ++ post)) ∧
    (error_codes payload.status = none →
      (shorten_url_with_cuttly long_url custom_alias (.resp 200 (.urlData payload))).error =
        some ("Cuttly Error: Unknown error (code: " ++ pyReprOptInt payload.status ++ ")")) := by
  have hmain : shorten_url_with_cuttly long_url custom_alias (.resp 200 (.urlData payload)) =
      { success := false,
        error := some ("Cuttly Error: " ++ ((error_codes payload.status).getD
          ("Unknown error (code: " ++ pyReprOptInt payload.status ++ ")"))),
        code := payload.status } := by
    simp [shorten_url_with_cuttly, hurl, h7, h1]
  refine ⟨⟨by rw [hmain], by rw [hmain], by rw [hmain]⟩,
          ⟨rfl, rfl, rfl, rfl, rfl, rfl⟩, ?_, ?_⟩
  · intro h4
    refine ⟨"Cuttly Error: Custom ", "", ?_⟩
    rw [hmain, h4]
    decide
  · intro hnone
    rw [hmain]
    simp only [hnone, Option.getD_none]
    rw [← string_append_assoc, ← string_append_assoc,
      show ("Cuttly Error: " ++ "Unknown error (code: ")
        = "Cuttly Error: Unknown error (code: " from by decide]

theorem C3_witness :
    shorten_url_with_cuttly "https://example.com" none
        (.resp 200 (.urlData ⟨some 7, some "https://cutt.ly/abc1"⟩)) =
      { success := true, short_url := some "https://cutt.ly/abc1",
        short_id := some "abc1", message := none, error := none, code := none,
        full_data := some ⟨some 7, some "https://cutt.ly/abc1"⟩ } := by
  have h := C3_success_statuses "https://example.com" none "https://cutt.ly/abc1"
    (by decide) (by decide)
  rw [h.1]
  decide

theorem C4_witness :
    (shorten_url_with_cuttly "https://example.com" none
        (.resp 200 (.urlData ⟨some 4, none⟩))).error =
      some "Cuttly Error: Custom alias already taken" := by
  have h := C4_error_status_table "https://example.com" none ⟨some 4, none⟩
    (by decide) (by decide) (by decide)
  rw [h.1.2.1]
  decide

/-- Looked up at any status other than 1 — the only reachable lookups —
the stats error table never returns a message containing the letter `f`. -/
theorem stats_error_codes_no_f (x : Option Int) (msg : String) (hx : x ≠ some 1)
    (h : stats_error_codes x = some msg) : 'f' ∉ msg.data := by
  unfold stats_error_codes at h
  rw [if_neg hx] at h
  split at h
  · cases h; decide
  · split at h
    · cases h; decide
    · split at h
      · cases h; decide
      · split at h
        · cases h; decide
        · cases h

/-- Every error message a remote stats response can produce, by branch of
`get_url_stats`. -/
theorem get_url_stats_resp_error (short_url : String) (code : Nat) (body : StatsBody)
    (e : String)
    (he : (get_url_stats short_url (.resp code body)).error = some e) :
    e = "No URL provided" ∨ e = "Invalid short URL" ∨
    (∃ n, e = "API Error: " ++ natRepr n) ∨
    e = "Invalid API response" ∨ e = "No stats data in response" ∨
    (∃ st, st ≠ some 1 ∧ e = "Stats Error: " ++ ((stats_error_codes st).getD
      ("Unknown error (code: " ++ pyReprOptInt st ++ ")"))) := by
  by_cases h1 : short_url = ""
  · simp [get_url_stats, h1] at he
    exact Or.inl he.symm
  · by_cases h2 : lastSegment short_url = ""
    · simp [get_url_stats, h1, h2] at he
      exact Or.inr (Or.inl he.symm)
    · by_cases h3 : code = 200
      · subst h3
        cases body with
        | invalid =>
          simp [get_url_stats, h1, h2] at he
          exact Or.inr (Or.inr (Or.inr (Or.inl he.symm)))
        | emptyStats =>
          simp [get_url_stats, h1, h2] at he
          exact Or.inr (Or.inr (Or.inr (Or.inr (Or.inl he.symm))))
        | statsData payload =>
          by_cases h5 : payload.status = some 1
          · simp [get_url_stats, h1, h2, h5] at he
          · simp [get_url_stats, h1, h2, h5] at he
            exact Or.inr (Or.inr (Or.inr (Or.inr (Or.inr ⟨payload.status, h5, he.symm⟩))))
      · simp [get_url_stats, h1, h2, h3] at he
        exact Or.inr (Or.inr (Or.inl ⟨code, he.symm⟩))

/-- C9: in the stats client, the table entry for status 1 (`Short URL not
found`) is dead: a remote response with `stats.status = 1` succeeds, so
no remote response ever yields an error message containing the phrase
`Short URL not found`. -/
theorem C9_stats_not_found_unreachable (short_url : String) (code : Nat) (body : StatsBody) :
    (∀ payload : StatsPayload, short_url ≠ "" → lastSegment short_url ≠ "" →
      code = 200 → body = .statsData payload → payload.status = some 1 →
      (get_url_stats short_url (.resp code body)).success = true) ∧
    (∀ e, (get_url_stats short_url (.resp code body)).error = some e →
      ¬ List.IsInfix "Short URL not found".data e.data) := by
  constructor
  · intro payload h1 h2 h3 h4 h5
    subst h3
    subst h4
    simp [get_url_stats, h1, h2, h5]
  · intro e he
    apply not_infix_of_no_f
    rcases get_url_stats_resp_error short_url code body e he with
      rfl | rfl | ⟨n, rfl⟩ | rfl | rfl | ⟨st, hst, rfl⟩
    · decide
    · decide
    · intro hmem
      rcases (mem_string_append _ _ _).mp hmem with h | h
      · exact absurd h (by decide)
      · exact f_not_mem_natRepr n h
    · decide
    · decide
    · intro hmem
      rcases (mem_string_append _ _ _).mp hmem with h | h
      · exact absurd h (by decide)
      · cases hsc : stats_error_codes st with
        | some msg =>
          rw [hsc, Option.getD_some] at h
          exact stats_error_codes_no_f _ _ hst hsc h
        | none =>
          rw [hsc, Option.getD_none] at h
          rcases (mem_string_append _ _ _).mp h with h | h
          · rcases (mem_string_append _ _ _).mp h with h | h
            · exact absurd h (by decide)
            · exact f_not_mem_pyReprOptInt _ h
          · exact absurd h (by decide)

theorem C9_witness :
    (get_url_stats "https://cutt.ly/abc"
      (.resp 200 (.statsData ⟨some 1, none, none, none, none,
        none, none, none, none⟩))).success = true ∧
    ¬ List.IsInfix "Short URL not found".data "No URL provided".data := by
  constructor
  · exact (C9_stats_not_found_unreachable "https://cutt.ly/abc" 200 _).1
      ⟨some 1, none, none, none, none, none, none, none, none⟩
      (by decide) (by decide) rfl rfl rfl
  · exact (C9_stats_not_found_unreachable "" 200
      (.statsData ⟨some 1, none, none, none, none, none, none, none, none⟩)).2
      "No URL provided" (by decide)

/-- C8: the `/mystats` rank label is a function of the stored
`urls_shortened` count: `Beginner` below 5, `Regular` from 5 through 50
inclusive, `Pro` above 50. -/
theorem C8_mystats_rank_tiers (n : Nat) :
    (n < 5 → mystats_rank n = "Beginner") ∧
    (5 ≤ n → n ≤ 50 → mystats_rank n = "Regular") ∧
    (50 < n → mystats_rank n = "Pro") := by
  unfold mystats_rank
  refine ⟨?_, ?_, ?_⟩
  · intro h
    rw [if_pos h]
  · intro h1 h2
    rw [if_neg (by omega), if_neg (by omega)]
  · intro h
    rw [if_neg (by omega), if_pos h]

theorem C8_witness : mystats_rank 5 = "Regular" ∧ mystats_rank 50 = "Regular" :=
  ⟨(C8_mystats_rank_tiers 5).2.1 (by decide) (by decide),
   (C8_mystats_rank_tiers 50).2.1 (by decide) (by decide)⟩

/-- C6: a bulk input with more than 10 non-empty lines is rejected
outright: the too-many reply is sent, no shorten call is issued, and the
user-statistics store is left untouched. -/
theorem C6_bulk_over_limit_rejected (store : StatsStore) (user_id : Int) (now : Nat)
    (remote : Nat → ShortenOutcome) (text : String)
    (h : (bulk_lines text).length > 10) :
    handle_bulk_urls store user_id now remote text =
      { reply := .tooMany, store := store, shorten_calls := 0 } := by
  unfold handle_bulk_urls
  rw [if_pos h]

theorem C6_witness :
    (bulk_lines "u1\nu2\nu3\nu4\nu5\nu6\nu7\nu8\nu9\nu10\nu11").length > 10 ∧
    handle_bulk_urls (fun _ => none) 1 0 (fun _ => ShortenOutcome.timeout)
        "u1\nu2\nu3\nu4\nu5\nu6\nu7\nu8\nu9\nu10\nu11" =
      { reply := .tooMany, store := fun _ => none, shorten_calls := 0 } :=
  ⟨by decide,
   C6_bulk_over_limit_rejected (fun _ => none) 1 0 (fun _ => ShortenOutcome.timeout)
     "u1\nu2\nu3\nu4\nu5\nu6\nu7\nu8\nu9\nu10\nu11" (by decide)⟩

/-- C10 (amended): a bulk input within the 10-line limit in which no
non-empty line passes validation gets the no-valid-URLs reply, with no
shorten call issued and the store unchanged.  (The limit hypothesis is
needed: an over-limit batch is rejected by the earlier too-many check
instead.) -/
theorem C10_bulk_no_valid_urls (store : StatsStore) (user_id : Int) (now : Nat)
    (remote : Nat → ShortenOutcome) (text : String)
    (hlen : (bulk_lines text).length ≤ 10)
    (hinv : ∀ l ∈ bulk_lines text, is_valid_url l = false) :
    handle_bulk_urls store user_id now remote text =
      { reply := .noValid, store := store, shorten_calls := 0 } := by
  unfold handle_bulk_urls
  rw [if_neg (by omega)]
  have h2 : (bulk_lines text).filter is_valid_url = [] := by
    rw [List.filter_eq_nil_iff]
    intro l hl
    simp [hinv l hl]
  rw [h2]
  rfl

/-- C10 as stated is too broad: an all-invalid batch of 11 lines hits the
too-many rejection, not the no-valid-URLs reply. -/
theorem C10_counterexample :
    (∀ l ∈ bulk_lines "x1\nx2\nx3\nx4\nx5\nx6\nx7\nx8\nx9\nx10\nx11",
      is_valid_url l = false) ∧
    (handle_bulk_urls (fun _ => none) 1 0 (fun _ => ShortenOutcome.timeout)
      "x1\nx2\nx3\nx4\nx5\nx6\nx7\nx8\nx9\nx10\nx11").reply = .tooMany ∧
    (handle_bulk_urls (fun _ => none) 1 0 (fun _ => ShortenOutcome.timeout)
      "x1\nx2\nx3\nx4\nx5\nx6\nx7\nx8\nx9\nx10\nx11").reply ≠ .noValid := by
  refine ⟨by decide, by decide, by decide⟩

theorem C10_witness :
    handle_bulk_urls (fun _ => none) 1 0 (fun _ => ShortenOutcome.timeout) "foo\nbar" =
      { reply := .noValid, store := fun _ => none, shorten_calls := 0 } :=
  C10_bulk_no_valid_urls (fun _ => none) 1 0 (fun _ => ShortenOutcome.timeout)
    "foo\nbar" (by decide) (by decide)

/-- Any call to `update_user_stats` — whatever the count, including 0 —
sets `first_used` to now exactly when it was unset, and preserves it
otherwise. -/
theorem firstUsedOf_update (store : StatsStore) (user_id : Int) (now : Nat) (k : Nat) :
    firstUsedOf (update_user_stats store user_id now k) user_id =
      (if firstUsedOf store user_id = none then some now
       else firstUsedOf store user_id) := by
  unfold firstUsedOf update_user_stats
  simp

/-- What `handle_bulk_urls` does to `first_used`: the update runs exactly
when the batch is within the limit and has a valid URL. -/
theorem handle_bulk_first_used (store : StatsStore) (user_id : Int) (now : Nat)
    (remote : Nat → ShortenOutcome) (text : String) :
    firstUsedOf (handle_bulk_urls store user_id now remote text).store user_id =
      (if opRecordsUsage (.bulk text remote) then
        (if firstUsedOf store user_id = none then some now
         else firstUsedOf store user_id)
       else firstUsedOf store user_id) := by
  simp only [handle_bulk_urls, opRecordsUsage]
  by_cases hlen : (bulk_lines text).length > 10
  · have hd : decide ((bulk_lines text).length ≤ 10) = false := by
      rw [decide_eq_false_iff_not]
      omega
    simp [hlen, hd]
  · have hd : decide ((bulk_lines text).length ≤ 10) = true := by
      rw [decide_eq_true_eq]
      omega
    by_cases hval : (List.filter is_valid_url (bulk_lines text)).isEmpty = true
    · simp [hlen, hd, hval]
    · rw [Bool.not_eq_true] at hval
      simp [hlen, hd, hval, firstUsedOf_update]

/-- Value of `first_used` after one inbound event: set to now exactly when it was
unset and the event records usage; untouched otherwise. -/
theorem firstUsedOf_runOp (store : StatsStore) (user_id : Int) (now : Nat) (op : BotOp) :
    firstUsedOf (runOp store user_id now op) user_id =
      (if opRecordsUsage op then
        (if firstUsedOf store user_id = none then some now
         else firstUsedOf store user_id)
       else firstUsedOf store user_id) := by
  cases op with
  | single text o =>
    by_cases h : single_shorten_records text o = true
    · simp [runOp, opRecordsUsage, h, firstUsedOf_update]
    · rw [Bool.not_eq_true] at h
      simp [runOp, opRecordsUsage, h]
  | custom custom_alias url o =>
    by_cases h : custom_records custom_alias url o = true
    · simp [runOp, opRecordsUsage, h, firstUsedOf_update]
    · rw [Bool.not_eq_true] at h
      simp [runOp, opRecordsUsage, h]
  | bulk text remote =>
    exact handle_bulk_first_used store user_id now remote text

/-- C2 (amended): once set, `first_used` is never changed by any later
operation; when unset, it is set — to the time of the operation — exactly
by the first operation that records usage, namely a successful single or
custom shorten, or a bulk batch within the limit containing at least one
valid URL, even if zero of its shortens succeed. -/
theorem C2_first_used_amended (store : StatsStore) (user_id : Int) (now : Nat) (op : BotOp) :
    (∀ t, firstUsedOf store user_id = some t →
      firstUsedOf (runOp store user_id now op) user_id = some t) ∧
    (firstUsedOf store user_id = none →
      firstUsedOf (runOp store user_id now op) user_id =
        (if opRecordsUsage op then some now else none)) := by
  constructor
  · intro t ht
    rw [firstUsedOf_runOp]
    by_cases h : opRecordsUsage op = true
    · rw [if_pos h, ht]
      simp
    · rw [if_neg h]
      exact ht
  · intro hn
    rw [firstUsedOf_runOp]
    by_cases h : opRecordsUsage op = true
    · rw [if_pos h, if_pos hn, if_pos h]
    · rw [if_neg h, if_neg h]
      exact hn

/-- C2 as stated is false on the code: a bulk batch whose only valid URL
fails to shorten performs zero successful shortens, yet
`update_user_stats` still runs with count 0 and sets `first_used`. -/
theorem C2_counterexample :
    opSuccessCount (.bulk "https://a.co" (fun _ => ShortenOutcome.timeout)) = 0 ∧
    firstUsedOf (fun _ => none) 1 = none ∧
    firstUsedOf (runOp (fun _ => none) 1 5
      (.bulk "https://a.co" (fun _ => ShortenOutcome.timeout))) 1 = some 5 := by
  refine ⟨by decide, rfl, by decide⟩

theorem C2_witness :
    firstUsedOf (runOp
      (fun i => if i = 1 then some ⟨2, some 3, some 3⟩ else none) 1 9
      (.single "x" ShortenOutcome.timeout)) 1 = some 3 ∧
    firstUsedOf (runOp (fun _ => none) 1 9
      (.custom "abc" "https://b.co"
        (.resp 200 (.urlData ⟨some 7, some "https://cutt.ly/x"⟩)))) 1 = some 9 := by
  constructor
  · exact (C2_first_used_amended
      (fun i => if i = 1 then some ⟨2, some 3, some 3⟩ else none) 1 9
      (.single "x" ShortenOutcome.timeout)).1 3 (by decide)
  · have h := (C2_first_used_amended (fun _ => none) 1 9
      (.custom "abc" "https://b.co"
        (.resp 200 (.urlData ⟨some 7, some "https://cutt.ly/x"⟩)))).2 rfl
    rw [h]
    decide

/-- C5 (amended): the validator accepts exactly the strings of the form
`scheme://domain(.tld)+[:port][/path]` — where the scheme is `http` or
`https` matched case-insensitively and every character class carries the
Python `re.IGNORECASE`/Unicode semantics of the source regex (labels and
TLD admit U+0130, U+0131, U+017F, U+212A besides ASCII letters, the
scheme letter `s` also matches U+017F, and the port digits are Unicode
decimal digits) — or such a string followed by one trailing newline,
which the Python `$` anchor also accepts; every other string is rejected.
In particular `ftp://x.com` is rejected, `https://a.co/p` accepted, and
the Unicode case-fold and digit acceptances of the running program are
reproduced.  No length cap and no normalization are applied anywhere in
the matcher. -/
theorem C5_validator_characterization :
    (∀ s : String, is_valid_url s = true ↔
      (SpecValidUrl s ∨ ∃ t, SpecValidUrl t ∧ s = t ++ "\n")) ∧
    is_valid_url "ftp://x.com" = false ∧
    is_valid_url "https://a.co/p" = true ∧
    is_valid_url "httpſ://a.co" = true ∧
    is_valid_url "http://aſ.co" = true ∧
    is_valid_url "http://a.KK" = true ∧
    is_valid_url "https://a.co:٣" = true :=
  ⟨valid_iff_spec, by decide, by decide, by decide, by decide, by decide, by decide⟩

/-- C5 as stated is false on the code: `https://a.co` followed by a
newline is accepted by the regex (Python `$` matches before a final
newline) but is not of the spec form, which contains no whitespace. -/
theorem C5_counterexample :
    is_valid_url "https://a.co\n" = true ∧ ¬ SpecValidUrl "https://a.co\n" := by
  refine ⟨by decide, ?_⟩
  intro h
  exact SpecValidUrl_no_newline _ h '\n' (by decide) rfl

